import Mathlib

/- Verification of the print shop audit program (src/Auditv2.py) and of the
   reconciliation engine its specification describes.  The pure fragments of
   Auditv2.py are embedded directly; the reconciliation engine itself is not
   present under src and is modelled from the specification where marked.
   Python floats are modelled as rationals, digit and case classification is
   modelled on ASCII, and pandas column access is modelled with Option. -/

namespace PrintAudit

/-- Numeric value of a list of decimal digit characters, most significant
digit first, so leading zero characters contribute nothing. -/
def natOfDigits (l : List Char) : Nat :=
  l.foldl (fun n c => 10 * n + (c.toNat - 48)) 0

/-- Modelled from the spec: the scan underlying the Identifier Extractor,
which finds the first maximal run of decimal digits in a character list.
The extractor itself is absent from src; the spec asks for the first maximal
digit run anywhere in the string. -/
def firstRun : List Char → Option (List Char)
  | [] => none
  | c :: cs => if c.isDigit then some (c :: cs.takeWhile Char.isDigit) else firstRun cs

/-- Modelled from the spec: the Identifier Extractor.  Given a text field it
returns the numeric value of the first maximal run of decimal digits, and
none when the string has no digit. -/
def extract_job_id (s : String) : Option Nat :=
  (firstRun s.data).map natOfDigits

/-- One row of the point of sale ledger, with the fields the core needs. -/
structure SalesRecord where
  invoice_ref : String
  customer_name : String
  item_name : String
  sales_qty : ℚ
deriving DecidableEq

/-- One row of the printer production log. -/
structure ProductionRecord where
  job_name : String
  owner : String
  printed_pages : ℚ
deriving DecidableEq

/-- Modelled from the spec: the sales side derives its job id from the
invoice reference using the shared extractor. -/
def salesJobId (r : SalesRecord) : Option Nat :=
  extract_job_id r.invoice_ref

/-- Modelled from the spec: the production side derives its job id from the
job name using the shared extractor. -/
def prodJobId (r : ProductionRecord) : Option Nat :=
  extract_job_id r.job_name

theorem firstRun_eq_none (l : List Char) (h : ∀ c ∈ l, c.isDigit = false) :
    firstRun l = none := by
  induction l with
  | nil => rfl
  | cons c cs ih =>
    have hc : c.isDigit = false := h c (by simp)
    have ih2 := ih (fun x hx => h x (by simp [hx]))
    simp [firstRun, hc, ih2]

theorem firstRun_append_nodigit (p l : List Char) (hp : ∀ c ∈ p, c.isDigit = false) :
    firstRun (p ++ l) = firstRun l := by
  induction p with
  | nil => rfl
  | cons c cs ih =>
    have hc : c.isDigit = false := hp c (by simp)
    have ih2 := ih (fun x hx => hp x (by simp [hx]))
    simp [firstRun, hc, ih2]

theorem takeWhile_digits (r q : List Char) (hr : ∀ c ∈ r, c.isDigit = true)
    (hq : ∀ c, q.head? = some c → c.isDigit = false) :
    (r ++ q).takeWhile Char.isDigit = r := by
  induction r with
  | nil =>
    cases q with
    | nil => rfl
    | cons c cs =>
      have hc := hq c rfl
      simp [List.takeWhile_cons, hc]
  | cons c cs ih =>
    have hc : c.isDigit = true := hr c (by simp)
    have ih2 := ih (fun x hx => hr x (by simp [hx]))
    simp [List.takeWhile_cons, hc, ih2]

theorem firstRun_run (r q : List Char) (hne : r ≠ []) (hr : ∀ c ∈ r, c.isDigit = true)
    (hq : ∀ c, q.head? = some c → c.isDigit = false) :
    firstRun (r ++ q) = some r := by
  cases r with
  | nil => exact absurd rfl hne
  | cons c cs =>
    have hc : c.isDigit = true := hr c (by simp)
    have ht : (cs ++ q).takeWhile Char.isDigit = cs :=
      takeWhile_digits cs q (fun x hx => hr x (by simp [hx])) hq
    simp [firstRun, hc, ht]

/-- C1: identifier extraction returns the numeric value of the first maximal
run of decimal digits (leading zeros dropped by numeric reading), returns
none when the input has no digit, and the very same extraction function is
applied to invoice_ref and to job_name. -/
theorem extraction_first_digit_run (s : String) :
    ((∀ c ∈ s.data, c.isDigit = false) → extract_job_id s = none)
    ∧ (∀ p r q : List Char, s.data = p ++ r ++ q → r ≠ [] →
        (∀ c ∈ p, c.isDigit = false) → (∀ c ∈ r, c.isDigit = true) →
        (∀ c, q.head? = some c → c.isDigit = false) →
        extract_job_id s = some (natOfDigits r))
    ∧ (∀ rec : SalesRecord, salesJobId rec = extract_job_id rec.invoice_ref)
    ∧ (∀ rec : ProductionRecord, prodJobId rec = extract_job_id rec.job_name) := by
  refine ⟨?_, ?_, fun rec => rfl, fun rec => rfl⟩
  · intro h
    unfold extract_job_id
    rw [firstRun_eq_none s.data h]
    rfl
  · intro p r q heq hne hp hr hq
    unfold extract_job_id
    rw [heq, List.append_assoc, firstRun_append_nodigit p _ hp, firstRun_run r q hne hr hq]
    rfl

/-- C1 witness: the extractor evaluated on the examples of the spec. -/
theorem extraction_first_digit_run_witness :
    extract_job_id "DR007" = some 7 ∧ extract_job_id "DR15322" = some 15322
    ∧ extract_job_id "Job_DR_15322" = some 15322
    ∧ extract_job_id "INV-None" = none := by
  refine ⟨?_, ?_, ?_, ?_⟩
  · have h := (extraction_first_digit_run "DR007").2.1 ['D', 'R'] ['0', '0', '7'] []
      (by decide) (by decide) (by decide) (by decide) (by decide)
    exact h.trans (by decide)
  · have h := (extraction_first_digit_run "DR15322").2.1 ['D', 'R'] ['1', '5', '3', '2', '2'] []
      (by decide) (by decide) (by decide) (by decide) (by decide)
    exact h.trans (by decide)
  · have h := (extraction_first_digit_run "Job_DR_15322").2.1 ['J', 'o', 'b', '_', 'D', 'R', '_']
      ['1', '5', '3', '2', '2'] [] (by decide) (by decide) (by decide) (by decide) (by decide)
    exact h.trans (by decide)
  · exact (extraction_first_digit_run "INV-None").1 (by decide)

/-- ASCII upper casing of a string, modelling the Python upper method on the
item names occurring in the tables. -/
def toUpperStr (s : String) : String :=
  ⟨s.data.map Char.toUpper⟩

/-- Starts-with test on character lists, first argument the pattern. -/
def startsWithList : List Char → List Char → Bool
  | [], _ => true
  | _ :: _, [] => false
  | a :: as, b :: bs => a == b && startsWithList as bs

/-- Substring containment on character lists, modelling the Python in
operator on strings, first argument the pattern. -/
def containsList (needle : List Char) : List Char → Bool
  | [] => startsWithList needle []
  | c :: rest => startsWithList needle (c :: rest) || containsList needle rest

/-- Substring containment on strings, modelling the Python in operator. -/
def containsSub (needle hay : String) : Bool :=
  containsList needle.data hay.data

/-- Modelled from the spec: the double sided marker test of the Page Count
Estimator, a case insensitive match of the token 2 SIDES against the item
name.  The estimator is absent from src. -/
def hasTwoSides (item : String) : Bool :=
  containsSub "2 SIDES" (toUpperStr item)

/-- Modelled from the spec: the Page Count Estimator.  The quantity is
doubled exactly when the item name carries the double sided marker. -/
def pageCount (qty : ℚ) (item : String) : ℚ :=
  if hasTwoSides item then qty * 2 else qty

/-- C4: the estimator returns qty times two exactly when the item name
contains the token 2 SIDES case insensitively, returns qty unchanged
otherwise, and a zero quantity yields zero pages either way. -/
theorem page_count_estimator (qty : ℚ) (item : String) :
    (hasTwoSides item = true → pageCount qty item = qty * 2)
    ∧ (hasTwoSides item = false → pageCount qty item = qty)
    ∧ pageCount 0 item = 0 := by
  refine ⟨fun h => by simp [pageCount, h], fun h => by simp [pageCount, h], ?_⟩
  unfold pageCount
  split <;> simp

/-- C4 witness: the estimator evaluated on the examples of the spec. -/
theorem page_count_estimator_witness :
    pageCount 10 "Flyer 2 Sides" = 10 * 2 ∧ pageCount 10 "Flyer 1 Side" = 10
    ∧ pageCount 0 "Poster 2 SIDES" = 0 := by
  refine ⟨?_, ?_, ?_⟩
  · exact (page_count_estimator 10 "Flyer 2 Sides").1 (by decide)
  · exact (page_count_estimator 10 "Flyer 1 Side").2.1 (by decide)
  · exact (page_count_estimator 0 "Poster 2 SIDES").2.2

/-- Modelled from the spec: the expected page count of one sales record,
derived from its quantity and its item name. -/
def expectedPages (r : SalesRecord) : ℚ :=
  pageCount r.sales_qty r.item_name

/-- Deduplication keeping the first occurrence of every element, with an
accumulator of ids already emitted. -/
def firstDedupAux (seen : List Nat) : List Nat → List Nat
  | [] => []
  | x :: xs => if x ∈ seen then firstDedupAux seen xs else x :: firstDedupAux (x :: seen) xs

/-- Deduplication keeping the first occurrence of every element, modelling
the key order a grouping pass produces from input order. -/
def firstDedup (l : List Nat) : List Nat :=
  firstDedupAux [] l

/-- Modelled from the spec: the grouping keys of the sales aggregation, the
non null job ids of the sales records in order of first occurrence. -/
def salesIds (sales : List SalesRecord) : List Nat :=
  firstDedup (sales.filterMap salesJobId)

/-- Modelled from the spec: the grouping keys of the production aggregation,
the non null job ids of the production records in order of first
occurrence. -/
def prodIds (prod : List ProductionRecord) : List Nat :=
  firstDedup (prod.filterMap prodJobId)

/-- Modelled from the spec: the aggregated expected pages of one sales
group, the sum of the individually computed expected pages of the records
carrying that job id.  The sum over an id that occurs nowhere is zero,
which realises the fill with zero of the outer join. -/
def salesTotal (sales : List SalesRecord) (j : Nat) : ℚ :=
  ((sales.filter (fun r => salesJobId r == some j)).map expectedPages).sum

/-- Modelled from the spec: the aggregated printed pages of one production
group, with the same fill with zero convention. -/
def prodTotal (prod : List ProductionRecord) (j : Nat) : ℚ :=
  ((prod.filter (fun r => prodJobId r == some j)).map ProductionRecord.printed_pages).sum

/-- Modelled from the spec: the representative record of a sales group, the
first record in input order carrying the job id. -/
def salesRep (sales : List SalesRecord) (j : Nat) : Option SalesRecord :=
  sales.find? (fun r => salesJobId r == some j)

/-- One row of the comparison set the Reconciler produces. -/
structure ComparisonRow where
  job_id : Nat
  invoice_ref : String
  customer_name : String
  expected_pages : ℚ
  printed_pages : ℚ
  diff : ℚ
deriving DecidableEq

/-- Modelled from the spec: the key set of the full outer join, every sales
id followed by every production id not already present. -/
def allIds (sales : List SalesRecord) (prod : List ProductionRecord) : List Nat :=
  salesIds sales ++ (prodIds prod).filter (fun j => !((salesIds sales).contains j))

/-- Modelled from the spec: one joined row for a job id, with representative
fields from the first sales record of the group, zero filled totals for an
absent side, and the signed difference printed minus expected. -/
def mkRow (sales : List SalesRecord) (prod : List ProductionRecord) (j : Nat) : ComparisonRow :=
  { job_id := j
    invoice_ref := ((salesRep sales j).map SalesRecord.invoice_ref).getD ""
    customer_name := ((salesRep sales j).map SalesRecord.customer_name).getD ""
    expected_pages := salesTotal sales j
    printed_pages := prodTotal prod j
    diff := prodTotal prod j - salesTotal sales j }

/-- Modelled from the spec: the comparison set of the Reconciler, one row
per job id present on either side. -/
def comparisonRows (sales : List SalesRecord) (prod : List ProductionRecord) :
    List ComparisonRow :=
  (allIds sales prod).map (mkRow sales prod)

/-- Modelled from the spec: the mismatch set, the comparison rows whose
difference is not zero. -/
def mismatchSet (sales : List SalesRecord) (prod : List ProductionRecord) :
    List ComparisonRow :=
  (comparisonRows sales prod).filter (fun row => !(row.diff == 0))

/-- Modelled from the spec: the orphan set, the production records whose job
id extraction yields none. -/
def orphans (prod : List ProductionRecord) : List ProductionRecord :=
  prod.filter (fun r => prodJobId r == none)

theorem mem_firstDedupAux (seen l : List Nat) (a : Nat) :
    a ∈ firstDedupAux seen l ↔ a ∈ l ∧ a ∉ seen := by
  induction l generalizing seen with
  | nil => simp [firstDedupAux]
  | cons x xs ih =>
    by_cases hx : x ∈ seen
    · simp only [firstDedupAux, if_pos hx, ih]
      constructor
      · exact fun h => ⟨List.mem_cons_of_mem x h.1, h.2⟩
      · rintro ⟨hmem, hns⟩
        rcases List.mem_cons.mp hmem with h | h
        · exact absurd (h ▸ hx) hns
        · exact ⟨h, hns⟩
    · simp only [firstDedupAux, if_neg hx, List.mem_cons, ih]
      constructor
      · rintro (h | ⟨hmem, hns⟩)
        · exact ⟨Or.inl h, h ▸ hx⟩
        · exact ⟨Or.inr hmem, fun hs => hns (Or.inr hs)⟩
      · rintro ⟨h | h, hns⟩
        · exact Or.inl h
        · by_cases hax : a = x
          · exact Or.inl hax
          · exact Or.inr ⟨h, fun hs => hs.elim hax hns⟩

theorem nodup_firstDedupAux (seen l : List Nat) : (firstDedupAux seen l).Nodup := by
  induction l generalizing seen with
  | nil => simp [firstDedupAux]
  | cons x xs ih =>
    by_cases hx : x ∈ seen
    · simpa [firstDedupAux, if_pos hx] using ih seen
    · simp only [firstDedupAux, if_neg hx]
      refine List.nodup_cons.mpr ⟨?_, ih (x :: seen)⟩
      intro hmem
      exact ((mem_firstDedupAux (x :: seen) xs x).mp hmem).2 (List.mem_cons_self x seen)

theorem mem_firstDedup (l : List Nat) (a : Nat) : a ∈ firstDedup l ↔ a ∈ l := by
  simpa [firstDedup] using mem_firstDedupAux [] l a

theorem nodup_firstDedup (l : List Nat) : (firstDedup l).Nodup :=
  nodup_firstDedupAux [] l

theorem map_job_id_comparisonRows (sales : List SalesRecord) (prod : List ProductionRecord) :
    (comparisonRows sales prod).map ComparisonRow.job_id = allIds sales prod := by
  unfold comparisonRows
  rw [List.map_map]
  have h : (ComparisonRow.job_id ∘ mkRow sales prod) = id := funext fun j => rfl
  rw [h, List.map_id]

theorem notContains_iff (l : List Nat) (j : Nat) : (!l.contains j) = true ↔ j ∉ l := by
  simp [List.elem_iff]

theorem mem_allIds (sales : List SalesRecord) (prod : List ProductionRecord) (j : Nat) :
    j ∈ allIds sales prod ↔ j ∈ salesIds sales ∨ j ∈ prodIds prod := by
  unfold allIds
  simp only [List.mem_append, List.mem_filter, notContains_iff]
  constructor
  · rintro (h | ⟨h, _⟩)
    · exact Or.inl h
    · exact Or.inr h
  · rintro (h | h)
    · exact Or.inl h
    · by_cases hs : j ∈ salesIds sales
      · exact Or.inl hs
      · exact Or.inr ⟨h, hs⟩

theorem nodup_allIds (sales : List SalesRecord) (prod : List ProductionRecord) :
    (allIds sales prod).Nodup := by
  unfold allIds
  refine List.Nodup.append (nodup_firstDedup _) (List.Nodup.filter _ (nodup_firstDedup _)) ?_
  intro a ha hb
  have hnc := (List.mem_filter.mp hb).2
  exact (notContains_iff _ _).mp hnc ha

theorem salesTotal_eq_zero (sales : List SalesRecord) (j : Nat)
    (h : j ∉ salesIds sales) : salesTotal sales j = 0 := by
  have hnone : ∀ r ∈ sales, ¬(salesJobId r == some j) = true := by
    intro r hr hbeq
    refine h ((mem_firstDedup _ j).mpr ?_)
    exact List.mem_filterMap.mpr ⟨r, hr, by simpa using hbeq⟩
  unfold salesTotal
  rw [List.filter_eq_nil_iff.mpr hnone]
  rfl

theorem prodTotal_eq_zero (prod : List ProductionRecord) (j : Nat)
    (h : j ∉ prodIds prod) : prodTotal prod j = 0 := by
  have hnone : ∀ r ∈ prod, ¬(prodJobId r == some j) = true := by
    intro r hr hbeq
    refine h ((mem_firstDedup _ j).mpr ?_)
    exact List.mem_filterMap.mpr ⟨r, hr, by simpa using hbeq⟩
  unfold prodTotal
  rw [List.filter_eq_nil_iff.mpr hnone]
  rfl

/-- C2: every non null job id of either aggregated side appears exactly once
among the comparison rows, a row whose id is absent from the sales side has
zero expected pages, and a row whose id is absent from the production side
has zero printed pages. -/
theorem join_completeness (sales : List SalesRecord) (prod : List ProductionRecord) :
    ((comparisonRows sales prod).map ComparisonRow.job_id).Nodup
    ∧ (∀ j : Nat, j ∈ (comparisonRows sales prod).map ComparisonRow.job_id ↔
        (j ∈ salesIds sales ∨ j ∈ prodIds prod))
    ∧ (∀ row ∈ comparisonRows sales prod, row.job_id ∉ salesIds sales →
        row.expected_pages = 0)
    ∧ (∀ row ∈ comparisonRows sales prod, row.job_id ∉ prodIds prod →
        row.printed_pages = 0) := by
  refine ⟨?_, ?_, ?_, ?_⟩
  · rw [map_job_id_comparisonRows]
    exact nodup_allIds sales prod
  · intro j
    rw [map_job_id_comparisonRows]
    exact mem_allIds sales prod j
  · intro row hrow hns
    rcases List.mem_map.mp hrow with ⟨j, _, rfl⟩
    exact salesTotal_eq_zero sales j hns
  · intro row hrow hnp
    rcases List.mem_map.mp hrow with ⟨j, _, rfl⟩
    exact prodTotal_eq_zero prod j hnp

/-- Example sales table with a single record for job id 100. -/
def exSales : List SalesRecord :=
  [{ invoice_ref := "DR100", customer_name := "Alice", item_name := "Card", sales_qty := 5 }]

/-- Example production table with a single record for job id 200. -/
def exProd : List ProductionRecord :=
  [{ job_name := "DR200", owner := "Bob", printed_pages := 3 }]

/-- C2 witness: on the example tables, the production only id 200 yields a
row with zero expected pages and the sales only id 100 a row with zero
printed pages. -/
theorem join_completeness_witness :
    (mkRow exSales exProd 200).expected_pages = 0
    ∧ (mkRow exSales exProd 100).printed_pages = 0 := by
  have h200 : mkRow exSales exProd 200 ∈ comparisonRows exSales exProd := by
    have hm : (200 : Nat) ∈ allIds exSales exProd := by decide
    simpa [comparisonRows] using List.mem_map_of_mem (mkRow exSales exProd) hm
  have h100 : mkRow exSales exProd 100 ∈ comparisonRows exSales exProd := by
    have hm : (100 : Nat) ∈ allIds exSales exProd := by decide
    simpa [comparisonRows] using List.mem_map_of_mem (mkRow exSales exProd) hm
  exact ⟨(join_completeness exSales exProd).2.2.1 _ h200 (by decide),
    (join_completeness exSales exProd).2.2.2 _ h100 (by decide)⟩

/-- C3: every comparison row carries diff equal to printed minus expected
pages, and a row lies in the mismatch set exactly when it is a comparison
row whose diff is not zero. -/
theorem mismatch_classification (sales : List SalesRecord) (prod : List ProductionRecord) :
    (∀ row ∈ comparisonRows sales prod, row.diff = row.printed_pages - row.expected_pages)
    ∧ (∀ row : ComparisonRow, row ∈ mismatchSet sales prod ↔
        row ∈ comparisonRows sales prod ∧ row.diff ≠ 0) := by
  constructor
  · intro row hrow
    rcases List.mem_map.mp hrow with ⟨j, _, rfl⟩
    rfl
  · intro row
    unfold mismatchSet
    rw [List.mem_filter]
    simp

/-- Example sales table for the mismatch witness, expected pages 20. -/
def exSales3 : List SalesRecord :=
  [{ invoice_ref := "DR1", customer_name := "Ann", item_name := "Flyer 2 Sides",
     sales_qty := 10 }]

/-- Example production table for the mismatch witness, printed pages 15. -/
def exProd3 : List ProductionRecord :=
  [{ job_name := "DR1", owner := "Bob", printed_pages := 15 }]

/-- C3 witness: the row with expected 20 and printed 15 has diff not zero
and is classified into the mismatch set. -/
theorem mismatch_classification_witness :
    mkRow exSales3 exProd3 1 ∈ mismatchSet exSales3 exProd3 := by
  have hm : (1 : Nat) ∈ allIds exSales3 exProd3 := by decide
  have hrow : mkRow exSales3 exProd3 1 ∈ comparisonRows exSales3 exProd3 := by
    simpa [comparisonRows] using List.mem_map_of_mem (mkRow exSales3 exProd3) hm
  have hid : (extract_job_id "DR1" == some 1) = true := by decide
  have hts : hasTwoSides "Flyer 2 Sides" = true := by decide
  have hdiff : (mkRow exSales3 exProd3 1).diff ≠ 0 := by
    simp only [mkRow, prodTotal, salesTotal, exSales3, exProd3, expectedPages, pageCount,
      hts, salesJobId, prodJobId, hid, List.filter_cons, List.filter_nil, if_true,
      List.map_cons, List.map_nil, List.sum_cons, List.sum_nil]
    norm_num
  exact ((mismatch_classification exSales3 exProd3).2 _).mpr ⟨hrow, hdiff⟩

theorem filterMap_filter_isSome {α β : Type} (f : α → Option β) (l : List α) :
    (l.filter (fun x => (f x).isSome)).filterMap f = l.filterMap f := by
  induction l with
  | nil => rfl
  | cons x xs ih =>
    cases hfx : f x with
    | none => simp [List.filter_cons, List.filterMap_cons, hfx, ih]
    | some b => simp [List.filter_cons, List.filterMap_cons, hfx, ih]

theorem filter_prodJob_filter_isSome (prod : List ProductionRecord) (j : Nat) :
    (prod.filter (fun r => (prodJobId r).isSome)).filter (fun r => prodJobId r == some j)
      = prod.filter (fun r => prodJobId r == some j) := by
  induction prod with
  | nil => rfl
  | cons x xs ih =>
    cases hfx : prodJobId x with
    | none => simp [List.filter_cons, hfx, ih]
    | some b => simp [List.filter_cons, hfx, ih]

theorem filter_salesJob_filter_isSome (sales : List SalesRecord) (j : Nat) :
    (sales.filter (fun r => (salesJobId r).isSome)).filter (fun r => salesJobId r == some j)
      = sales.filter (fun r => salesJobId r == some j) := by
  induction sales with
  | nil => rfl
  | cons x xs ih =>
    cases hfx : salesJobId x with
    | none => simp [List.filter_cons, hfx, ih]
    | some b => simp [List.filter_cons, hfx, ih]

theorem find_salesJob_filter_isSome (sales : List SalesRecord) (j : Nat) :
    (sales.filter (fun r => (salesJobId r).isSome)).find? (fun r => salesJobId r == some j)
      = sales.find? (fun r => salesJobId r == some j) := by
  induction sales with
  | nil => rfl
  | cons x xs ih =>
    cases hfx : salesJobId x with
    | none => simp [List.filter_cons, List.find?_cons, hfx, ih]
    | some b =>
      by_cases hbj : b = j
      · subst hbj
        simp [List.filter_cons, List.find?_cons, hfx]
      · simp [List.filter_cons, List.find?_cons, hfx, hbj, ih]

theorem prodIds_filter_isSome (prod : List ProductionRecord) :
    prodIds (prod.filter (fun r => (prodJobId r).isSome)) = prodIds prod := by
  unfold prodIds
  rw [filterMap_filter_isSome]

theorem salesIds_filter_isSome (sales : List SalesRecord) :
    salesIds (sales.filter (fun r => (salesJobId r).isSome)) = salesIds sales := by
  unfold salesIds
  rw [filterMap_filter_isSome]

theorem prodTotal_filter_isSome (prod : List ProductionRecord) (j : Nat) :
    prodTotal (prod.filter (fun r => (prodJobId r).isSome)) j = prodTotal prod j := by
  unfold prodTotal
  rw [filter_prodJob_filter_isSome]

theorem salesTotal_filter_isSome (sales : List SalesRecord) (j : Nat) :
    salesTotal (sales.filter (fun r => (salesJobId r).isSome)) j = salesTotal sales j := by
  unfold salesTotal
  rw [filter_salesJob_filter_isSome]

theorem mkRow_filter_prod (sales : List SalesRecord) (prod : List ProductionRecord) :
    mkRow sales (prod.filter (fun r => (prodJobId r).isSome)) = mkRow sales prod := by
  funext j
  unfold mkRow
  rw [prodTotal_filter_isSome]

/-- C5: a production record is an orphan exactly when its job id extraction
yields none, such records never influence the comparison set, and sales
records with an unextractable job id are silently excluded from every sales
aggregate. -/
theorem orphan_isolation (sales : List SalesRecord) (prod : List ProductionRecord) :
    (∀ pr : ProductionRecord, pr ∈ orphans prod ↔ pr ∈ prod ∧ prodJobId pr = none)
    ∧ comparisonRows sales prod
        = comparisonRows sales (prod.filter (fun r => (prodJobId r).isSome))
    ∧ salesIds (sales.filter (fun r => (salesJobId r).isSome)) = salesIds sales
    ∧ (∀ j : Nat, salesTotal (sales.filter (fun r => (salesJobId r).isSome)) j
        = salesTotal sales j)
    ∧ (∀ j : Nat, salesRep (sales.filter (fun r => (salesJobId r).isSome)) j
        = salesRep sales j) := by
  refine ⟨?_, ?_, salesIds_filter_isSome sales, salesTotal_filter_isSome sales, ?_⟩
  · intro pr
    unfold orphans
    rw [List.mem_filter]
    simp
  · unfold comparisonRows allIds
    rw [prodIds_filter_isSome, mkRow_filter_prod]
  · intro j
    unfold salesRep
    rw [find_salesJob_filter_isSome]

/-- C6: the aggregated total of a sales group is the sum of the individually
computed expected pages of its records, this total is invariant under
permutation of the input rows, and the representative record of a group is
the first record in input order carrying its job id. -/
theorem aggregation_first_and_sum (sales : List SalesRecord) (j : Nat) :
    salesTotal sales j
      = ((sales.filter (fun r => salesJobId r == some j)).map expectedPages).sum
    ∧ (∀ sales2 : List SalesRecord, sales.Perm sales2 →
        salesTotal sales j = salesTotal sales2 j)
    ∧ (∀ (pre post : List SalesRecord) (r : SalesRecord),
        sales = pre ++ r :: post → salesJobId r = some j →
        (∀ r2 ∈ pre, salesJobId r2 ≠ some j) →
        salesRep sales j = some r) := by
  refine ⟨rfl, ?_, ?_⟩
  · intro sales2 hperm
    unfold salesTotal
    exact List.Perm.sum_eq ((hperm.filter _).map _)
  · intro pre post r heq hr hpre
    subst heq
    unfold salesRep
    have hfind : ∀ (l₂ : List SalesRecord),
        List.find? (fun r2 => salesJobId r2 == some j) (pre ++ l₂)
          = List.find? (fun r2 => salesJobId r2 == some j) l₂ := by
      induction pre with
      | nil => intro l₂; rfl
      | cons x xs ih =>
        intro l₂
        have hx : (salesJobId x == some j) = false := by
          simpa using hpre x (by simp)
        have ih2 := ih (fun r2 hr2 => hpre r2 (by simp [hr2])) l₂
        simp [List.find?_cons, hx, ih2]
    rw [hfind]
    simp [List.find?_cons, hr]

/-- First example record for the aggregation witness, job id 7. -/
def exRec1 : SalesRecord :=
  { invoice_ref := "DR7", customer_name := "Ann", item_name := "Card", sales_qty := 3 }

/-- Second example record for the aggregation witness, job id 7. -/
def exRec2 : SalesRecord :=
  { invoice_ref := "DR7", customer_name := "Bob", item_name := "Card 2 Sides", sales_qty := 4 }

/-- C6 witness: on a two record group the total is unchanged by swapping the
rows and the representative is the first record in input order. -/
theorem aggregation_first_and_sum_witness :
    salesTotal [exRec1, exRec2] 7 = salesTotal [exRec2, exRec1] 7
    ∧ salesRep [exRec1, exRec2] 7 = some exRec1 := by
  constructor
  · exact (aggregation_first_and_sum [exRec1, exRec2] 7).2.1 [exRec2, exRec1]
      (List.Perm.swap exRec2 exRec1 [])
  · exact (aggregation_first_and_sum [exRec1, exRec2] 7).2.2 [] [exRec2] exRec1 rfl
      (by decide) (by simp)

/-- One cell of an input table as clean_num receives it.  The null
constructor covers the values pandas isna accepts, such as None and NaN;
num covers raw int and float cells, modelled as rationals; str covers text
cells. -/
inductive CellVal where
  | null : CellVal
  | num (q : ℚ) : CellVal
  | str (s : String) : CellVal
deriving DecidableEq

/-- Character filter of clean_num, keeping exactly ASCII decimal digits and
dots, from the substitution on line 31 of src/Auditv2.py. -/
def isDigitOrDot (c : Char) : Bool :=
  c.isDigit || c == '.'

/-- The stripping pass of clean_num, removing every character that is not a
digit or a dot, from line 31 of src/Auditv2.py. -/
def stripNonNum (s : String) : String :=
  ⟨s.data.filter isDigitOrDot⟩

/-- Value of a character list made of digits and at most one dot, integer
part plus fractional part. -/
def ratOfDigitDot (l : List Char) : ℚ :=
  let ip := l.takeWhile (fun c => !(c == '.'))
  let fp := (l.dropWhile (fun c => !(c == '.'))).drop 1
  (natOfDigits ip : ℚ) + (natOfDigits fp : ℚ) / ((10 : ℚ) ^ fp.length)

/-- Model of the Python float constructor restricted to the strings
clean_num feeds it, which contain only digits and dots after stripping: it
succeeds exactly on strings with at least one digit and at most one dot. -/
def parseFloatQ (s : String) : Option ℚ :=
  if s.data.any Char.isDigit && decide (s.data.count '.' ≤ 1)
  then some (ratOfDigitDot s.data) else none

/-- The numeric cleaning function of lines 28 to 35 of src/Auditv2.py:
null and empty inputs give zero, raw numbers pass through unchanged, and a
text cell is stripped to digits and dots and parsed, any parse failure
giving zero. -/
def clean_num : CellVal → ℚ
  | .null => 0
  | .num q => q
  | .str s =>
    if s = "" then 0
    else
      match parseFloatQ (stripNonNum s) with
      | some q => q
      | none => 0

/-- One raw row of the loaded table, reduced to the fields the date
dropping step of load_and_clean inspects. -/
structure RawRow where
  item_name : String
  sales_date : String
deriving DecidableEq

/-- The date handling of lines 60 to 62 of src/Auditv2.py: the date column
is parsed with coercion of failures to not a time, then rows whose parse
failed are dropped.  The datetime parser itself is a pandas library
function and is abstracted as an argument. -/
def dropUnparseableDates (dparse : String → Option Nat) (rows : List RawRow) : List RawRow :=
  rows.filter (fun r => (dparse r.sales_date).isSome)

theorem clean_num_str (s : String) :
    clean_num (CellVal.str s)
      = if s = "" then 0
        else
          match parseFloatQ (stripNonNum s) with
          | some q => q
          | none => 0 := rfl

theorem parseFloatQ_eq_some (s : String) (q : ℚ) (h : parseFloatQ s = some q) :
    q = ratOfDigitDot s.data := by
  unfold parseFloatQ at h
  split at h
  · exact (Option.some.inj h).symm
  · cases h

theorem count_dot_filter (l : List Char) :
    (l.filter isDigitOrDot).count '.' = l.count '.' := by
  induction l with
  | nil => rfl
  | cons c cs ih =>
    by_cases hc : c = '.'
    · subst hc
      simp [List.filter_cons, isDigitOrDot, List.count_cons, ih]
    · by_cases hd : isDigitOrDot c = true
      · simp [List.filter_cons, hd, List.count_cons, hc, ih]
      · simp [List.filter_cons, hd, List.count_cons, hc, ih]

theorem ratOfDigitDot_nonneg (l : List Char) : 0 ≤ ratOfDigitDot l := by
  unfold ratOfDigitDot
  have h1 : (0 : ℚ) ≤ (natOfDigits (l.takeWhile (fun c => !(c == '.'))) : ℚ) :=
    Nat.cast_nonneg _
  have h2 : (0 : ℚ) ≤ (natOfDigits ((l.dropWhile (fun c => !(c == '.'))).drop 1) : ℚ) :=
    Nat.cast_nonneg _
  have h3 : (0 : ℚ) ≤ (10 : ℚ) ^ ((l.dropWhile (fun c => !(c == '.'))).drop 1).length :=
    pow_nonneg (by norm_num) _
  exact add_nonneg h1 (div_nonneg h2 h3)

/-- C7: per field anomalies are absorbed, never raised: clean_num maps null
input, empty text and unparseable text to zero, and a row whose date fails
to parse is dropped from the table rather than aborting the run. -/
theorem parse_failure_recovery :
    clean_num CellVal.null = 0
    ∧ clean_num (CellVal.str "") = 0
    ∧ (∀ s : String, parseFloatQ (stripNonNum s) = none → clean_num (CellVal.str s) = 0)
    ∧ (∀ (dparse : String → Option Nat) (rows : List RawRow) (r : RawRow),
        dparse r.sales_date = none → r ∉ dropUnparseableDates dparse rows) := by
  refine ⟨rfl, rfl, ?_, ?_⟩
  · intro s hs
    rw [clean_num_str, hs]
    split <;> rfl
  · intro dparse rows r hnone hmem
    have hsome := (List.mem_filter.mp hmem).2
    rw [hnone] at hsome
    simp at hsome

/-- Example row for the date dropping witness. -/
def exRow : RawRow :=
  { item_name := "Card", sales_date := "not a date" }

/-- C7 witness: a concrete unparseable text cell cleans to zero and a row
with an unparseable date is dropped by the date filter. -/
theorem parse_failure_recovery_witness :
    clean_num (CellVal.str "N/A") = 0
    ∧ exRow ∉ dropUnparseableDates (fun _ => none) [exRow] := by
  constructor
  · exact parse_failure_recovery.2.2.1 "N/A" (by decide)
  · exact parse_failure_recovery.2.2.2 (fun _ => none) [exRow] exRow rfl

/-- C10: on text input clean_num is non negative because the sign is
stripped before parsing, a stripped string with no digit or more than one
dot cleans to zero, and a raw numeric cell, negative ones included, passes
through unchanged. -/
theorem clean_num_sign_dropped (s : String) :
    0 ≤ clean_num (CellVal.str s)
    ∧ (2 ≤ s.data.count '.' → clean_num (CellVal.str s) = 0)
    ∧ ((∀ c ∈ s.data, c.isDigit = false) → clean_num (CellVal.str s) = 0)
    ∧ (∀ q : ℚ, clean_num (CellVal.num q) = q) := by
  refine ⟨?_, ?_, ?_, fun q => rfl⟩
  · rw [clean_num_str]
    split
    · exact le_refl 0
    · cases hp : parseFloatQ (stripNonNum s) with
      | none => exact le_refl 0
      | some q =>
        show (0 : ℚ) ≤ q
        rw [parseFloatQ_eq_some _ _ hp]
        exact ratOfDigitDot_nonneg _
  · intro hdots
    have hcount : (stripNonNum s).data.count '.' = s.data.count '.' :=
      count_dot_filter s.data
    have hfail : parseFloatQ (stripNonNum s) = none := by
      unfold parseFloatQ
      rw [if_neg]
      intro hc
      have h2 := (Bool.and_eq_true _ _).mp hc
      have h3 := of_decide_eq_true h2.2
      omega
    exact parse_failure_recovery.2.2.1 s hfail
  · intro hdig
    have hnod : (stripNonNum s).data.any Char.isDigit = false := by
      rw [List.any_eq_false]
      intro c hc
      have hcmem := List.mem_of_mem_filter hc
      simp [hdig c hcmem]
    have hfail : parseFloatQ (stripNonNum s) = none := by
      unfold parseFloatQ
      rw [if_neg]
      intro hc
      have h2 := (Bool.and_eq_true _ _).mp hc
      rw [hnod] at h2
      exact Bool.false_ne_true h2.1
    exact parse_failure_recovery.2.2.1 s hfail

/-- C10 witness: the string minus five cleans to positive five, its sign
dropped by the stripping pass, while the raw number minus five passes
through unchanged. -/
theorem clean_num_sign_dropped_witness :
    clean_num (CellVal.num (-5)) = -5
    ∧ clean_num (CellVal.str "1.2.3") = 0
    ∧ clean_num (CellVal.str "-5") = 5 := by
  refine ⟨(clean_num_sign_dropped "x").2.2.2 (-5), ?_, ?_⟩
  · exact (clean_num_sign_dropped "1.2.3").2.1 (by decide)
  · have hstrip : stripNonNum "-5" = "5" := by decide
    have hparse : parseFloatQ (stripNonNum "-5") = some (ratOfDigitDot "5".data) := by
      rw [hstrip]
      unfold parseFloatQ
      rw [if_pos (by decide)]
    have hval : ratOfDigitDot "5".data = 5 := by
      have hdata : "5".data = ['5'] := by decide
      rw [hdata]
      simp only [ratOfDigitDot]
      have h1 : List.takeWhile (fun c => !(c == '.')) ['5'] = ['5'] := by decide
      have h2 : List.dropWhile (fun c => !(c == '.')) ['5'] = [] := by decide
      rw [h1, h2]
      have h3 : natOfDigits ['5'] = 5 := by decide
      have h4 : natOfDigits (([] : List Char).drop 1) = 0 := by decide
      rw [h3, h4]
      norm_num
    have hcn : clean_num (CellVal.str "-5")
        = match parseFloatQ (stripNonNum "-5") with
          | some q => q
          | none => 0 := by
      rw [clean_num_str, if_neg (by decide)]
    rw [hcn, hparse]
    exact hval

/-- A loaded table as a list of named columns of cells, modelling the data
frame the loader returns. -/
structure Table where
  cols : List (String × List CellVal)
deriving DecidableEq

/-- Column access by name, none when the column is absent, modelling data
frame indexing: a none result stands for the KeyError pandas raises. -/
def getCol (t : Table) (name : String) : Option (List CellVal) :=
  (t.cols.find? (fun p => p.1 == name)).map Prod.snd

/-- The four column names line 54 of src/Auditv2.py cleans numerically. -/
def numericCols : List String :=
  ["Total", "Discount", "Sales Qty", "Amount"]

/-- The guarded numeric cleaning of lines 54 to 56 of src/Auditv2.py: each
of the four listed columns is cleaned only when present, so a table lacking
some of them passes through this step without failure. -/
def cleanColumns (t : Table) : Table :=
  ⟨t.cols.map (fun p =>
    if p.1 ∈ numericCols
    then (p.1, p.2.map (fun v => CellVal.num (clean_num v)))
    else p)⟩

/-- The revenue computation of line 98 of src/Auditv2.py, rev equals the
sum of the Total column.  Unlike cleanColumns it reads the column with no
presence guard: the none result models the KeyError pandas raises there
when the Total column is absent, which aborts the run. -/
def financialSummary (t : Table) : Option ℚ :=
  (getCol t "Total").map (fun col => (col.map clean_num).sum)

/-- Example table holding the required reconciliation columns but no Total
column, as the spec says should degrade gracefully. -/
def tableNoTotal : Table :=
  ⟨[("Item Name", [CellVal.str "Card"]),
    ("Customer Name", [CellVal.str "Alice"]),
    ("Sales Qty", [CellVal.str "5"])]⟩

/-- C8 evaluation: on a table lacking the Total column the guarded cleaning
step of load_and_clean succeeds, cleaning only the columns present, yet the
unconditional revenue read of the financial summary hits an absent column
and the run aborts, so the pipeline does not complete as claimed. -/
theorem missing_total_column_crashes :
    cleanColumns tableNoTotal
      = ⟨[("Item Name", [CellVal.str "Card"]),
          ("Customer Name", [CellVal.str "Alice"]),
          ("Sales Qty", [CellVal.num (clean_num (CellVal.str "5"))])]⟩
    ∧ financialSummary (cleanColumns tableNoTotal) = none := by
  constructor
  · rfl
  · rfl

/-- Whitespace in the sense of the regular expression class backslash s of
Python, space, tab, newline, carriage return, vertical tab and form
feed. -/
def pySpace (c : Char) : Bool :=
  c == ' ' || c == '\t' || c == '\n' || c == '\r' || c == '\x0b' || c == '\x0c'

/-- Attempt of the dimension pattern of line 68 of src/Auditv2.py at the
start of the given suffix: a digit run, optional whitespace, one of the
characters x or X or asterisk, optional whitespace, then a digit run, the
two runs read numerically as width and height.  Both digit runs are taken
greedily, which matches the regular expression because a shorter first run
would put a digit where the separator class must match. -/
def matchDimAt (l : List Char) : Option (Nat × Nat) :=
  let w := l.takeWhile Char.isDigit
  if w.isEmpty then none
  else
    match (l.dropWhile Char.isDigit).dropWhile pySpace with
    | [] => none
    | c :: rest =>
      if c == 'x' || c == 'X' || c == '*' then
        let h := (rest.dropWhile pySpace).takeWhile Char.isDigit
        if h.isEmpty then none else some (natOfDigits w, natOfDigits h)
      else none

/-- Leftmost search for the dimension pattern, modelling the search method
of the compiled pattern on line 71 of src/Auditv2.py.  Only positions that
start a maximal digit run are tried: at any later position inside the same
run the pattern sees the same suffix after a shorter first run and fails or
succeeds identically, and at a non digit position the pattern fails at
once, so this scan returns the same match the regular expression engine
finds.  The flag records whether the previous character was a digit. -/
def findDimAux : Bool → List Char → Option (Nat × Nat)
  | _, [] => none
  | prevDigit, c :: rest =>
    if c.isDigit && !prevDigit then
      match matchDimAt (c :: rest) with
      | some wh => some wh
      | none => findDimAux true rest
    else findDimAux c.isDigit rest

/-- Leftmost match of the dimension pattern in a character list. -/
def findDim (l : List Char) : Option (Nat × Nat) :=
  findDimAux false l

/-- The operator inputs get_costs reads, the plate multiplier of line 14 of
src/Auditv2.py and the seven material unit costs of lines 17 to 25. -/
structure CostParams where
  plate_rate : ℚ
  digital : ℚ
  sticker : ℚ
  c2s220 : ℚ
  c2s180 : ℚ
  c2s140 : ℚ
  c2s120 : ℚ
  c2s80 : ℚ
deriving DecidableEq

/-- The keyword chain of lines 76 to 83 of src/Auditv2.py, applied to the
upper cased item name, each containment check in source order with first
match winning and zero when nothing matches. -/
def keywordChain (P : CostParams) (item : String) : ℚ :=
  if containsSub "DIGITAL" item then P.digital
  else if containsSub "STICKER" item then P.sticker
  else if containsSub "C2S 220" item || containsSub "FC" item
      || containsSub "FOLDCOTE" item then P.c2s220
  else if containsSub "C2S 180" item then P.c2s180
  else if containsSub "C2S 140" item then P.c2s140
  else if containsSub "C2S 120" item then P.c2s120
  else if containsSub "C2S 80" item || containsSub "BOOK 80" item then P.c2s80
  else 0

/-- The get_costs function of lines 69 to 83 of src/Auditv2.py: the item
name is upper cased, the dimension rule fires when the pattern matches, the
item does not contain BANNER and the width exceeds one hundred, giving
width over one thousand times height over one thousand times the plate
rate, and otherwise the keyword chain decides. -/
def get_costs (P : CostParams) (item_name : String) : ℚ :=
  let item := toUpperStr item_name
  match findDim item.data with
  | some wh =>
    if !containsSub "BANNER" item && decide (100 < wh.1)
    then ((wh.1 : ℚ) / 1000) * ((wh.2 : ℚ) / 1000) * P.plate_rate
    else keywordChain P item
  | none => keywordChain P item

/-- Predicate of the dimension rule in the rule table reading of the spec:
the pattern matches, the item does not contain BANNER and the width
exceeds one hundred. -/
def dimPred (item : String) : Bool :=
  match findDim item.data with
  | some wh => !containsSub "BANNER" item && decide (100 < wh.1)
  | none => false

/-- Value of the dimension rule, width over one thousand times height over
one thousand times the plate rate. -/
def dimValue (P : CostParams) (item : String) : ℚ :=
  match findDim item.data with
  | some wh => ((wh.1 : ℚ) / 1000) * ((wh.2 : ℚ) / 1000) * P.plate_rate
  | none => 0

/-- The ordered rule table the spec describes for unit cost assignment, the
dimension rule first, then the material keyword rules in their listed
order.  Each entry pairs a predicate on the upper cased item name with a
value function of that name. -/
def ruleTable (P : CostParams) : List ((String → Bool) × (String → ℚ)) :=
  [(dimPred, dimValue P),
   (fun it => containsSub "DIGITAL" it, fun _ => P.digital),
   (fun it => containsSub "STICKER" it, fun _ => P.sticker),
   (fun it => containsSub "C2S 220" it || containsSub "FC" it
      || containsSub "FOLDCOTE" it, fun _ => P.c2s220),
   (fun it => containsSub "C2S 180" it, fun _ => P.c2s180),
   (fun it => containsSub "C2S 140" it, fun _ => P.c2s140),
   (fun it => containsSub "C2S 120" it, fun _ => P.c2s120),
   (fun it => containsSub "C2S 80" it || containsSub "BOOK 80" it, fun _ => P.c2s80)]

/-- Evaluation of an ordered rule table in priority order with first match
winning and default zero, the dispatch shape the spec asks for. -/
def firstMatch (rules : List ((String → Bool) × (String → ℚ))) (item : String) : ℚ :=
  match rules with
  | [] => 0
  | (p, v) :: rest => if p item then v item else firstMatch rest item

theorem firstMatch_eq_zero (rules : List ((String → Bool) × (String → ℚ))) (item : String)
    (h : ∀ rule ∈ rules, rule.1 item = false) : firstMatch rules item = 0 := by
  induction rules with
  | nil => rfl
  | cons r rest ih =>
    obtain ⟨p, v⟩ := r
    have hr : p item = false := h (p, v) (by simp)
    have ih2 := ih (fun rule hrule => h rule (by simp [hrule]))
    simp [firstMatch, hr, ih2]

/-- C9: unit cost assignment is exactly the evaluation of the ordered rule
table on the upper cased item name, the dimension rule ahead of every
keyword rule, the keyword rules in listed order, first match winning, and
an item matching no rule receives unit cost zero. -/
theorem unit_cost_rule_table (P : CostParams) (item_name : String) :
    get_costs P item_name = firstMatch (ruleTable P) (toUpperStr item_name)
    ∧ ((∀ rule ∈ ruleTable P, rule.1 (toUpperStr item_name) = false) →
        get_costs P item_name = 0) := by
  have hmain : get_costs P item_name = firstMatch (ruleTable P) (toUpperStr item_name) := by
    unfold get_costs ruleTable firstMatch keywordChain
    cases hfd : findDim (toUpperStr item_name).data with
    | none => simp [dimPred, dimValue, hfd, firstMatch]
    | some wh => simp [dimPred, dimValue, hfd, firstMatch]
  refine ⟨hmain, ?_⟩
  intro hnone
  rw [hmain]
  exact firstMatch_eq_zero _ _ hnone

/-- Concrete operator inputs for the witness, the default values of the
sidebar on lines 13 to 25 of src/Auditv2.py. -/
def defaultParams : CostParams :=
  { plate_rate := 275, digital := 3.5, sticker := 3.25, c2s220 := 2.87,
    c2s180 := 2.57, c2s140 := 1.6, c2s120 := 1.59, c2s80 := 1.04 }

/-- C9 witness: an item matching no rule costs zero, and the rule table
evaluation agrees with the source chain on a dimension item. -/
theorem unit_cost_rule_table_witness :
    get_costs defaultParams "Plain Paper" = 0
    ∧ get_costs defaultParams "Tarp 200 x 300"
        = firstMatch (ruleTable defaultParams) (toUpperStr "Tarp 200 x 300") := by
  constructor
  · exact (unit_cost_rule_table defaultParams "Plain Paper").2 (by decide)
  · exact (unit_cost_rule_table defaultParams "Tarp 200 x 300").1

end PrintAudit
